import Mathlib

/-
Verification development for the FIA document bot repository.

The repository has two entry points:
  - src/main.py        : the main orchestrator (iterates the listing, hashes
                         each document URL with sha256 truncated to 16 hex
                         characters, downloads and renders the first PDF page,
                         pushes images to the repo, posts them, and saves
                         posted_ids.json once at the end of the run);
  - src/fia_instagram_bot.py : a simpler alternative bot (dedups by raw URL in
                         posted.txt, converts every PDF page to an image, and
                         stops after the first successful post of a run).

This file embeds the pure logic of both scripts: the SHA-256 identity
derivation (hashlib.sha256(url).hexdigest()[:16]), safe_slug, listing parsing
with its URL-based dedup, the per-candidate orchestration with its event
trace, and the simpler bot loop.  External collaborators (HTTP, PyMuPDF,
git, the Instagram API) are modelled through an environment record of
deterministic outcome functions.
-/

set_option maxRecDepth 100000
set_option maxHeartbeats 2000000

namespace FiaBot

/-! ## SHA-256 (embedding of hashlib.sha256 over bytes, per FIPS 180-4)

Machine words are `Nat` taken modulo `2^32`; messages are lists of byte
values.  Everything is structurally recursive so that concrete digests
evaluate inside the kernel. -/

def M32 : Nat := 4294967296

def rotr (n x : Nat) : Nat := ((x >>> n) ||| (x <<< (32 - n))) % M32

def bsig0 (x : Nat) : Nat := rotr 2 x ^^^ rotr 13 x ^^^ rotr 22 x

def bsig1 (x : Nat) : Nat := rotr 6 x ^^^ rotr 11 x ^^^ rotr 25 x

def ssig0 (x : Nat) : Nat := rotr 7 x ^^^ rotr 18 x ^^^ (x >>> 3)

def ssig1 (x : Nat) : Nat := rotr 17 x ^^^ rotr 19 x ^^^ (x >>> 10)

def chf (x y z : Nat) : Nat := (x &&& y) ^^^ ((x ^^^ 4294967295) &&& z)

def maj (x y z : Nat) : Nat := (x &&& y) ^^^ (x &&& z) ^^^ (y &&& z)

def K : List Nat :=
  [1116352408, 1899447441, 3049323471, 3921009573, 961987163, 1508970993,
   2453635748, 2870763221, 3624381080, 310598401, 607225278, 1426881987,
   1925078388, 2162078206, 2614888103, 3248222580, 3835390401, 4022224774,
   264347078, 604807628, 770255983, 1249150122, 1555081692, 1996064986,
   2554220882, 2821834349, 2952996808, 3210313671, 3336571891, 3584528711,
   113926993, 338241895, 666307205, 773529912, 1294757372, 1396182291,
   1695183700, 1986661051, 2177026350, 2456956037, 2730485921, 2820302411,
   3259730800, 3345764771, 3516065817, 3600352804, 4094571909, 275423344,
   430227734, 506948616, 659060556, 883997877, 958139571, 1322822218,
   1537002063, 1747873779, 1955562222, 2024104815, 2227730452, 2361852424,
   2428436474, 2756734187, 3204031479, 3329325298]

def H0 : List Nat :=
  [1779033703, 3144134277, 1013904242, 2773480762,
   1359893119, 2600822924, 528734635, 1541459225]

/-- Big-endian byte expansion of a natural number, fixed width. -/
def beBytes : Nat → Nat → List Nat
  | 0, _ => []
  | k + 1, n => beBytes k (n / 256) ++ [n % 256]

/-- FIPS 180-4 padding: append 0x80, zeros to 56 mod 64, then the 64-bit
big-endian bit length. -/
def padMsg (msg : List Nat) : List Nat :=
  msg ++ [0x80] ++ List.replicate ((119 - msg.length % 64) % 64) 0
      ++ beBytes 8 (8 * msg.length)

def bytesToWordsGo : Nat → List Nat → List Nat
  | 0, _ => []
  | k + 1, l =>
      (l.getD 0 0 * 16777216 + l.getD 1 0 * 65536 + l.getD 2 0 * 256 + l.getD 3 0)
        :: bytesToWordsGo k (l.drop 4)

def chunksGo : Nat → List Nat → List (List Nat)
  | 0, _ => []
  | _, [] => []
  | n + 1, l => l.take 64 :: chunksGo n (l.drop 64)

def chunks (l : List Nat) : List (List Nat) := chunksGo l.length l

/-- One step of the message-schedule extension; the accumulator holds the
schedule so far, most recent word first. -/
def schedStep (w : List Nat) : Nat :=
  (w.getD 15 0 + ssig0 (w.getD 14 0) + w.getD 6 0 + ssig1 (w.getD 1 0)) % M32

def schedGo : Nat → List Nat → List Nat
  | 0, w => w
  | n + 1, w => schedGo n (schedStep w :: w)

/-- The 64-word message schedule of one 512-bit block. -/
def schedule (block : List Nat) : List Nat :=
  (schedGo 48 (bytesToWordsGo 16 block).reverse).reverse

/-- One round of the compression function on the state [a,b,c,d,e,f,g,h]. -/
def roundStep (st : List Nat) (kw : Nat × Nat) : List Nat :=
  let a := st.getD 0 0
  let b := st.getD 1 0
  let c := st.getD 2 0
  let d := st.getD 3 0
  let e := st.getD 4 0
  let f := st.getD 5 0
  let g := st.getD 6 0
  let h := st.getD 7 0
  let t1 := (h + bsig1 e + chf e f g + kw.1 + kw.2) % M32
  let t2 := (bsig0 a + maj a b c) % M32
  [(t1 + t2) % M32, a, b, c, (d + t1) % M32, e, f, g]

def compress (h : List Nat) (block : List Nat) : List Nat :=
  let st := (K.zip (schedule block)).foldl roundStep h
  List.zipWith (fun x y => (x + y) % M32) h st

/-- The eight 32-bit digest words of a byte message. -/
def sha256Words (msg : List Nat) : List Nat :=
  let f := (chunks (padMsg msg)).foldl compress H0
  [f.getD 0 0, f.getD 1 0, f.getD 2 0, f.getD 3 0,
   f.getD 4 0, f.getD 5 0, f.getD 6 0, f.getD 7 0]

def hexChar (n : Nat) : Char := "0123456789abcdef".data.getD n '0'

def toHexFixed : Nat → Nat → List Char
  | _, 0 => []
  | w, d + 1 => toHexFixed (w / 16) d ++ [hexChar (w % 16)]

/-- UTF-8 encoding of one character (str.encode("utf-8") per code point). -/
def utf8Char (c : Char) : List Nat :=
  let n := c.toNat
  if n < 128 then [n]
  else if n < 2048 then [192 + n / 64, 128 + n % 64]
  else if n < 65536 then [224 + n / 4096, 128 + n / 64 % 64, 128 + n % 64]
  else [240 + n / 262144, 128 + n / 4096 % 64, 128 + n / 64 % 64, 128 + n % 64]

def utf8 (s : String) : List Nat := (s.data.map utf8Char).flatten

/-- hashlib.sha256(s.encode("utf-8")).hexdigest() -/
def sha256hex (s : String) : String :=
  String.mk (((sha256Words (utf8 s)).map (fun w => toHexFixed w 8)).flatten)

/-- The identity derivation of src/main.py line 190:
hashlib.sha256(url.encode("utf-8")).hexdigest()[:16]. -/
def uidOf (s : String) : String := String.mk ((sha256hex s).data.take 16)

/-! ## safe_slug (src/main.py lines 137-140)

Python strings are modelled through their character lists.  `isPySpace`
covers the ASCII whitespace characters matched by Python's `\s`; the file
only ever feeds the slug through an ASCII-only filter, so the claims about
its output do not depend on the Unicode part of `\s`. -/

def isPySpace (c : Char) : Bool :=
  c == ' ' || c == '\t' || c == '\n' || c == '\x0d' || c == '\x0b' || c == '\x0c'

/-- The character class [A-Za-z0-9\-_.] of the second re.sub in safe_slug. -/
def isSlugChar (c : Char) : Bool :=
  ('A' ≤ c && c ≤ 'Z') || ('a' ≤ c && c ≤ 'z') || ('0' ≤ c && c ≤ '9') ||
    c == '-' || c == '_' || c == '.'

/-- Python str.strip(): drop leading and trailing whitespace. -/
def stripPy (l : List Char) : List Char :=
  ((l.dropWhile isPySpace).reverse.dropWhile isPySpace).reverse

/-- re.sub(r"\s+", "-", text): each maximal whitespace run becomes one dash.
Fuel-based so the definition evaluates in the kernel; the fuel is the list
length, which bounds the recursion since every step consumes a character. -/
def wsToDashGo : Nat → List Char → List Char
  | 0, _ => []
  | _, [] => []
  | n + 1, c :: rest =>
      if isPySpace c then '-' :: wsToDashGo n (rest.dropWhile isPySpace)
      else c :: wsToDashGo n rest

def wsToDash (l : List Char) : List Char := wsToDashGo l.length l

/-- src/main.py safe_slug: strip, collapse whitespace to dashes, remove every
character outside [A-Za-z0-9\-_.], truncate to 100 characters. -/
def safe_slug (s : String) : String :=
  String.mk (((wsToDash (stripPy s.data)).filter isSlugChar).take 100)

/-! ## Locator normalization and urljoin

src/main.py never normalizes a URL before hashing; the normalization below
exists only to state the spec's claims about normalized-equal locators. -/

/-- Lower-cases one ASCII letter. -/
def lowerAscii (c : Char) : Char :=
  if 'A' ≤ c && c ≤ 'Z' then Char.ofNat (c.toNat + 32) else c

/-- Splits a character list at the first "://", returning the parts before
and after it. -/
def breakScheme : List Char → Option (List Char × List Char)
  | [] => none
  | ':' :: '/' :: '/' :: rest => some ([], rest)
  | c :: rest =>
      match breakScheme rest with
      | none => none
      | some (pre, post) => some (c :: pre, post)

/-- Modelled from the spec: the locator normalization that section 4.1 says
the Identity Deriver must apply before hashing (strip the fragment,
canonicalize the trailing slash by dropping it, lower-case scheme and
host).  No such function exists in the source; src/main.py hashes the raw
locator.  Used only to state the spec's "normalized-equal" relation. -/
def normalizeLocator (s : String) : String :=
  let noFrag := s.data.takeWhile (fun c => c ≠ '#')
  let noSlash := if noFrag.getLast? = some '/' then noFrag.dropLast else noFrag
  match breakScheme noSlash with
  | none => String.mk noSlash
  | some (scheme, rest) =>
      let host := rest.takeWhile (fun c => c ≠ '/')
      let path := rest.dropWhile (fun c => c ≠ '/')
      String.mk (scheme.map lowerAscii ++ ':' :: '/' :: '/' :: host.map lowerAscii ++ path)

/-- Modelled behavior of urllib.parse.urljoin for the reference shapes this
program produces: an absolute URL (it contains "://") replaces the base; a
root-relative path is appended to the base's origin; any other relative
path replaces the last segment of the base. -/
def urljoin (base href : String) : String :=
  if href = "" then base
  else if (breakScheme href.data).isSome then href
  else if href.data.getD 0 ' ' = '/' then
    match breakScheme base.data with
    | none => href
    | some (scheme, rest) =>
        String.mk (scheme ++ ':' :: '/' :: '/' :: rest.takeWhile (fun c => c ≠ '/') ++ href.data)
  else
    String.mk ((base.data.reverse.dropWhile (fun c => c ≠ '/')).reverse ++ href.data)

/-! ## Renderer models

A PDF is abstracted to its list of page contents; an image records which
page it depicts, at which dpi, in which format.  Rasterization itself is the
external library (PyMuPDF / pdf2image). -/

structure PdfDoc where
  pages : List Nat
deriving DecidableEq

structure Img where
  page : Nat
  dpi : Nat
  fmt : String
deriving DecidableEq

/-- src/main.py pdf_first_page_to_png: doc.load_page(0) renders exactly the
first page at the given dpi to one PNG; on a zero-page document load_page
raises, modelled as none. -/
def pdf_first_page_to_png (pdf : PdfDoc) (dpi : Nat) : Option Img :=
  match pdf.pages with
  | [] => none
  | p :: _ => some ⟨p, dpi, "png"⟩

/-- src/fia_instagram_bot.py convert_pdf_to_img: convert_from_path renders
every page (pdf2image default 200 dpi, fmt="jpeg") and the loop saves one
image file per page. -/
def convert_pdf_to_img (pdf : PdfDoc) : List Img :=
  pdf.pages.map (fun p => ⟨p, 200, "jpeg"⟩)

/-! ## Listing Scanner (src/main.py lines 61-102)

An HTML page is abstracted to its list of anchors: href, visible text and
the text of the parent element. -/

structure Anchor where
  href : String
  text : String
  parentText : String
deriving DecidableEq

structure Doc where
  title : String
  doc_page_url : String
  published : Option String
deriving DecidableEq

/-- Splits a character list into its maximal whitespace-free words
(Python str.split()).  Fuel-based; the fuel is the list length. -/
def wordsGo : Nat → List Char → List (List Char)
  | 0, _ => []
  | n + 1, l =>
      match l.dropWhile isPySpace with
      | [] => []
      | c :: rest =>
          ((c :: rest).takeWhile (fun x => !isPySpace x))
            :: wordsGo n ((c :: rest).dropWhile (fun x => !isPySpace x))

/-- Python " ".join(s.split()): collapse whitespace runs to single spaces and
strip the ends. -/
def wsCollapse (s : String) : String :=
  String.mk (List.intercalate [' '] (wordsGo s.data.length s.data))

def isDigitCh (c : Char) : Bool := '0' ≤ c && c ≤ '9'

/-- Matches the shape dd.mm.yy hh:mm at the head of a character list and
returns those fourteen characters. -/
def matchDateTime : List Char → Option (List Char)
  | d1 :: d2 :: '.' :: m1 :: m2 :: '.' :: y1 :: y2 :: ' ' :: h1 :: h2 :: ':' :: n1 :: n2 :: _ =>
      if isDigitCh d1 && isDigitCh d2 && isDigitCh m1 && isDigitCh m2 &&
         isDigitCh y1 && isDigitCh y2 && isDigitCh h1 && isDigitCh h2 &&
         isDigitCh n1 && isDigitCh n2 then
        some [d1, d2, '.', m1, m2, '.', y1, y2, ' ', h1, h2, ':', n1, n2]
      else none
  | _ => none

def startsWithChars : List Char → List Char → Bool
  | [], _ => true
  | _ :: _, [] => false
  | p :: ps, c :: cs => p == c && startsWithChars ps cs

def hasSubChars (pat : List Char) : List Char → Bool
  | [] => startsWithChars pat []
  | c :: rest => startsWithChars pat (c :: rest) || hasSubChars pat rest

/-- re.search(r"Published on\s+(dd.mm.yy)\s+(hh:mm)") over the
whitespace-collapsed parent text, returning "date time" on a match. -/
def findPublishedGo : Nat → List Char → Option String
  | 0, _ => none
  | _, [] => none
  | n + 1, c :: rest =>
      if startsWithChars "Published on ".data (c :: rest) then
        match matchDateTime ((c :: rest).drop 13) with
        | some dt => some (String.mk dt)
        | none => findPublishedGo n rest
      else findPublishedGo n rest

def findPublished (s : String) : Option String := findPublishedGo s.data.length s.data

/-- The anchor loop of parse_listing_for_docs: keep anchors with non-empty
href and collapsed text whose href contains "/document/", resolving the
href against the base URL and extracting a nearby "Published on" stamp. -/
def parseItems (baseUrl : String) : List Anchor → List Doc
  | [] => []
  | a :: rest =>
      let text := wsCollapse a.text
      if a.href = "" || text = "" then parseItems baseUrl rest
      else if hasSubChars "/document/".data a.href.data then
        ⟨text, urljoin baseUrl a.href, findPublished (wsCollapse a.parentText)⟩
          :: parseItems baseUrl rest
      else parseItems baseUrl rest

/-- The dedup loop of src/main.py lines 82-89: keep the first item for each
exact doc_page_url string. -/
def dedupByUrl (seen : List String) : List Doc → List Doc
  | [] => []
  | d :: rest =>
      if d.doc_page_url ∈ seen then dedupByUrl seen rest
      else d :: dedupByUrl (d.doc_page_url :: seen) rest

def parse_listing_for_docs (anchors : List Anchor) (baseUrl : String) : List Doc :=
  dedupByUrl [] (parseItems baseUrl anchors)

def SEASON_URLS : List String :=
  ["https://www.fia.com/documents/championships/fia-formula-one-world-championship-14/season/season-2025-2071",
   "https://www.fia.com/documents/championships/fia-formula-one-world-championship-14/season/season-2024-2043"]

/-- The season loop of find_latest_docs: the fetch function returns the
anchors of a listing page, or none when fetch_html/parsing raises. -/
def findLatestGo (fetch : String → Option (List Anchor)) (maxDocs : Nat) :
    List String → List Doc
  | [] => []
  | u :: rest =>
      match fetch u with
      | none => findLatestGo fetch maxDocs rest
      | some anchors =>
          let docs := parse_listing_for_docs anchors u
          if docs.isEmpty then findLatestGo fetch maxDocs rest else docs.take maxDocs

def find_latest_docs (fetch : String → Option (List Anchor)) (maxDocs : Nat) : List Doc :=
  findLatestGo fetch maxDocs SEASON_URLS

/-! ## Pipeline Orchestrator (src/main.py main, lines 175-245)

Per-candidate stage outcomes (PDF resolution, download, render, publish)
come from a deterministic environment record, so two runs against an
unchanged world see identical outcomes.  The run result carries the final
posted set, the observable event trace, and the process exit code.  The
asserted credentials of line 176 are presupposed and the git pushes are
modelled as succeeding collaborator calls (their failure raises out of
main and is outside the claims below). -/

structure Item where
  uid : String
  title : String
  published : Option String
  png : String
deriving DecidableEq

structure Env where
  resolvePdf : String → Option String
  fetchOk : String → Bool
  renderOk : String → Bool
  publishOk : String → Bool
  rawBase : String

inductive Event where
  | pushAssets
  | publishAttempt (uid : String)
  | publishSuccess (uid : String)
  | publishFail (uid : String)
  | saveState (ids : List String)
  | pushState
deriving DecidableEq

structure RunResult where
  state : List String
  trace : List Event
  exitCode : Nat
deriving DecidableEq

/-- The per-candidate record built at src/main.py lines 199-210. -/
def itemOf (d : Doc) : Item :=
  ⟨uidOf d.doc_page_url, d.title, d.published,
   "out/" ++ safe_slug d.title ++ "-" ++ uidOf d.doc_page_url ++ ".png"⟩

/-- The first loop of main (lines 189-213): skip candidates whose uid is in
posted_ids, then resolve, download and render; any stage failure skips just
that candidate. -/
def gather (env : Env) (posted : List String) : List Doc → List Item
  | [] => []
  | d :: ds =>
      if uidOf d.doc_page_url ∈ posted then gather env posted ds
      else
        match env.resolvePdf d.doc_page_url with
        | none => gather env posted ds
        | some pdfUrl =>
            if env.fetchOk pdfUrl then
              if env.renderOk pdfUrl then itemOf d :: gather env posted ds
              else gather env posted ds
            else gather env posted ds

/-- posted_ids.add for the set modelled as a duplicate-free list. -/
def insertId (u : String) (l : List String) : List String :=
  if u ∈ l then l else u :: l

def imageUrl (env : Env) (it : Item) : String := urljoin env.rawBase it.png

/-- The publish loop of main (lines 226-241): attempt every gathered item; a
success adds the uid to posted_ids, a failure is logged and skipped. -/
def publishLoop (env : Env) : List Item → List String → List String × List Event
  | [], posted => (posted, [])
  | it :: its, posted =>
      if env.publishOk (imageUrl env it) then
        let r := publishLoop env its (insertId it.uid posted)
        (r.1, Event.publishAttempt it.uid :: Event.publishSuccess it.uid :: r.2)
      else
        let r := publishLoop env its posted
        (r.1, Event.publishAttempt it.uid :: Event.publishFail it.uid :: r.2)

/-- main from line 178 on: load state, gather candidates, return early (exit
code 0) when there are no candidates or nothing new, otherwise push the
images, publish each, save the state once, push the state. -/
def run (env : Env) (posted : List String) (cands : List Doc) : RunResult :=
  if cands.isEmpty then ⟨posted, [], 0⟩
  else if (gather env posted cands).isEmpty then ⟨posted, [], 0⟩
  else
    ⟨(publishLoop env (gather env posted cands) posted).1,
     Event.pushAssets :: (publishLoop env (gather env posted cands) posted).2
       ++ [Event.saveState (publishLoop env (gather env posted cands) posted).1,
           Event.pushState],
     0⟩

/-- main including the listing scan (line 181). -/
def mainRun (fetch : String → Option (List Anchor)) (posted : List String) (env : Env) :
    RunResult :=
  run env posted (find_latest_docs fetch 12)

def isAttemptEvent : Event → Bool
  | Event.publishAttempt _ => true
  | _ => false

def isSuccessEvent : Event → Bool
  | Event.publishSuccess _ => true
  | _ => false

def isSaveEvent : Event → Bool
  | Event.saveState _ => true
  | _ => false

def isPublishEvent : Event → Bool
  | Event.publishAttempt _ => true
  | Event.publishSuccess _ => true
  | Event.publishFail _ => true
  | _ => false

/-- Number of successful publishes recorded in a trace. -/
def countSuccess (tr : List Event) : Nat := tr.countP isSuccessEvent

/-- Holds when no publish attempt occurs before the first state save. -/
def noAttemptBeforeSave : List Event → Bool
  | [] => true
  | Event.saveState _ :: _ => true
  | Event.publishAttempt _ :: _ => false
  | _ :: rest => noAttemptBeforeSave rest

/-- The claimed per-publish flush discipline: after every successful publish
a state save occurs before the next publish attempt. -/
def perPublishFlush : List Event → Bool
  | [] => true
  | Event.publishSuccess _ :: rest => noAttemptBeforeSave rest && perPublishFlush rest
  | _ :: rest => perPublishFlush rest

/-- Batched flush: after any state save there are no further publish events
and no further saves. -/
def flushBatched : List Event → Bool
  | [] => true
  | Event.saveState _ :: rest => rest.all (fun e => !isPublishEvent e && !isSaveEvent e)
  | _ :: rest => flushBatched rest

/-- No publish event occurs before the assets push. -/
def noPublishBeforePush : List Event → Bool
  | [] => true
  | Event.pushAssets :: _ => true
  | Event.publishAttempt _ :: _ => false
  | Event.publishSuccess _ :: _ => false
  | Event.publishFail _ :: _ => false
  | _ :: rest => noPublishBeforePush rest

/-! ## The simpler bot (src/fia_instagram_bot.py) -/

structure BotDoc where
  subject : String
  issued : String
  url : String
deriving DecidableEq

/-- The main loop of src/fia_instagram_bot.py (lines 54-62): skip docs whose
raw URL is in posted.txt, publish the first one that is not, append its URL
to posted.txt, and stop (the break).  Returns the new posted list and the
number of posts performed. -/
def bot_main : List BotDoc → List String → List String × Nat
  | [], posted => (posted, 0)
  | d :: ds, posted =>
      if d.url ∈ posted then bot_main ds posted
      else (posted ++ [d.url], 1)

/-- Whether a candidate passes every pre-publish stage (resolution, download,
render) in the given environment.  Used to state the shape of `gather`. -/
def passesB (env : Env) (d : Doc) : Bool :=
  match env.resolvePdf d.doc_page_url with
  | none => false
  | some p => env.fetchOk p && env.renderOk p

/-! ## Concrete inputs for witnesses and counterexamples -/

/-- An environment in which every per-candidate stage succeeds. -/
def envAll : Env :=
  ⟨fun _ => some "https://www.fia.com/system/files/doc.pdf",
   fun _ => true, fun _ => true, fun _ => true,
   "https://raw.githubusercontent.com/owner/repo/main/"⟩

/-- An environment in which candidate d2 resolves to the PDF "P2" whose
render fails, while every other stage succeeds. -/
def envRender2Fails : Env :=
  ⟨fun u =>
      if u = "https://www.fia.com/document/d1" then some "P1"
      else if u = "https://www.fia.com/document/d2" then some "P2"
      else some "P3",
   fun _ => true, fun p => !(p == "P2"), fun _ => true,
   "https://raw.githubusercontent.com/owner/repo/main/"⟩

def dW1 : Doc := ⟨"Doc 1", "https://www.fia.com/document/d1", none⟩

def dW2 : Doc := ⟨"Doc 2", "https://www.fia.com/document/d2", none⟩

def dW3 : Doc := ⟨"Doc 3", "https://www.fia.com/document/d3", none⟩

/-- Sanity vector: SHA-256 of the empty message (FIPS 180-4 test vector). -/
theorem sha256_empty_vector :
    sha256hex "" = "e3b0c44298fc1c149afbf4c8996fb92427ae41e4649b934ca495991b7852b855" := by
  decide

/-- Sanity vector: SHA-256 of "abc" (FIPS 180-4 test vector). -/
theorem sha256_abc_vector :
    sha256hex "abc" = "ba7816bf8f01cfea414140de5dae2223b00361a396177a9cb410ff61f20015ad" := by
  decide

/-! ## Helper lemmas -/

theorem toHexFixed_length (d : Nat) : ∀ w, (toHexFixed w d).length = d := by
  induction d with
  | zero => intro w; rfl
  | succ n ih => intro w; simp [toHexFixed, ih]

theorem sha256hex_length (s : String) : (sha256hex s).data.length = 64 := by
  simp [sha256hex, sha256Words, toHexFixed_length]

theorem gather_cons_eq (env : Env) (posted : List String) (d : Doc) (ds : List Doc) :
    gather env posted (d :: ds) =
      if uidOf d.doc_page_url ∉ posted ∧ passesB env d = true
      then itemOf d :: gather env posted ds
      else gather env posted ds := by
  by_cases hm : uidOf d.doc_page_url ∈ posted
  · simp [gather, hm]
  · cases hr : env.resolvePdf d.doc_page_url with
    | none => simp [gather, hm, hr, passesB]
    | some p =>
        cases hf : env.fetchOk p <;> cases hd : env.renderOk p <;>
          simp [gather, hm, hr, passesB, hf, hd]

theorem gather_uid_not_mem (env : Env) (posted : List String) :
    ∀ ds it, it ∈ gather env posted ds → it.uid ∉ posted := by
  intro ds
  induction ds with
  | nil => intro it h; simp [gather] at h
  | cons d ds ih =>
      intro it h
      rw [gather_cons_eq] at h
      by_cases hc : uidOf d.doc_page_url ∉ posted ∧ passesB env d = true
      · rw [if_pos hc] at h
        rcases List.mem_cons.mp h with rfl | hmem
        · simpa [itemOf] using hc.1
        · exact ih it hmem
      · rw [if_neg hc] at h
        exact ih it h

theorem gather_anti (env : Env) (posted posted' : List String)
    (hsub : ∀ x, x ∈ posted → x ∈ posted') :
    ∀ ds it, it ∈ gather env posted' ds → it ∈ gather env posted ds := by
  intro ds
  induction ds with
  | nil => intro it h; simp [gather] at h
  | cons d ds ih =>
      intro it h
      rw [gather_cons_eq] at h
      rw [gather_cons_eq]
      by_cases hc : uidOf d.doc_page_url ∉ posted' ∧ passesB env d = true
      · rw [if_pos hc] at h
        have hc' : uidOf d.doc_page_url ∉ posted ∧ passesB env d = true :=
          ⟨fun hx => hc.1 (hsub _ hx), hc.2⟩
        rw [if_pos hc']
        rcases List.mem_cons.mp h with rfl | hmem
        · exact List.mem_cons_self _ _
        · exact List.mem_cons_of_mem _ (ih it hmem)
      · rw [if_neg hc] at h
        have hrec := ih it h
        by_cases hc' : uidOf d.doc_page_url ∉ posted ∧ passesB env d = true
        · rw [if_pos hc']
          exact List.mem_cons_of_mem _ hrec
        · rw [if_neg hc']
          exact hrec

theorem mem_insertId (x u : String) (l : List String) :
    x ∈ insertId u l ↔ x = u ∨ x ∈ l := by
  unfold insertId
  split
  · rename_i h
    constructor
    · exact fun hx => Or.inr hx
    · rintro (rfl | hx)
      · exact h
      · exact hx
  · simp [List.mem_cons]

theorem publishLoop_state_mono (env : Env) :
    ∀ (items : List Item) (posted : List String) (x : String),
      x ∈ posted → x ∈ (publishLoop env items posted).1 := by
  intro items
  induction items with
  | nil => intro posted x hx; simpa [publishLoop] using hx
  | cons it its ih =>
      intro posted x hx
      by_cases hp : env.publishOk (imageUrl env it) = true
      · simpa [publishLoop, hp] using ih (insertId it.uid posted) x ((mem_insertId x _ _).mpr (Or.inr hx))
      · simp only [publishLoop, Bool.not_eq_true] at *
        simpa [publishLoop, hp] using ih posted x hx

theorem publishLoop_state_of_ok (env : Env) :
    ∀ (items : List Item) (posted : List String) (it : Item),
      it ∈ items → env.publishOk (imageUrl env it) = true →
      it.uid ∈ (publishLoop env items posted).1 := by
  intro items
  induction items with
  | nil => intro posted it h; simp at h
  | cons a its ih =>
      intro posted it hmem hp
      rcases List.mem_cons.mp hmem with rfl | hmem
      · simpa [publishLoop, hp] using
          publishLoop_state_mono env its (insertId it.uid posted) it.uid
            ((mem_insertId _ _ _).mpr (Or.inl rfl))
      · by_cases ha : env.publishOk (imageUrl env a) = true
        · simpa [publishLoop, ha] using ih (insertId a.uid posted) it hmem hp
        · simp only [Bool.not_eq_true] at ha
          simpa [publishLoop, ha] using ih posted it hmem hp

theorem publishLoop_zero_success (env : Env) :
    ∀ (items : List Item) (posted : List String),
      (∀ it ∈ items, env.publishOk (imageUrl env it) = false) →
      countSuccess (publishLoop env items posted).2 = 0 := by
  intro items
  induction items with
  | nil => intro posted _; simp [publishLoop, countSuccess]
  | cons a its ih =>
      intro posted hall
      have ha : env.publishOk (imageUrl env a) = false := hall a (List.mem_cons_self _ _)
      have hrest : ∀ it ∈ its, env.publishOk (imageUrl env it) = false :=
        fun it h => hall it (List.mem_cons_of_mem _ h)
      simp [publishLoop, ha, countSuccess, List.countP_cons, isSuccessEvent]
      simpa [countSuccess] using ih posted hrest

theorem publishLoop_no_save (env : Env) :
    ∀ (items : List Item) (posted : List String),
      ∀ e ∈ (publishLoop env items posted).2, isSaveEvent e = false := by
  intro items
  induction items with
  | nil => intro posted e h; simp [publishLoop] at h
  | cons a its ih =>
      intro posted e h
      by_cases ha : env.publishOk (imageUrl env a) = true
      · simp [publishLoop, ha] at h
        rcases h with rfl | rfl | hmem
        · rfl
        · rfl
        · exact ih _ e hmem
      · simp only [Bool.not_eq_true] at ha
        simp [publishLoop, ha] at h
        rcases h with rfl | rfl | hmem
        · rfl
        · rfl
        · exact ih _ e hmem

theorem run_state_mono (env : Env) (posted : List String) (cands : List Doc) :
    ∀ x ∈ posted, x ∈ (run env posted cands).state := by
  intro x hx
  unfold run
  split
  · exact hx
  · split
    · exact hx
    · exact publishLoop_state_mono env _ posted x hx

theorem run_mem_state_of_ok (env : Env) (posted : List String) (cands : List Doc)
    (it : Item) (hmem : it ∈ gather env posted cands)
    (hp : env.publishOk (imageUrl env it) = true) :
    it.uid ∈ (run env posted cands).state := by
  unfold run
  split
  · rename_i hnil
    rw [List.isEmpty_iff] at hnil
    subst hnil
    simp [gather] at hmem
  · split
    · rename_i hnil
      rw [List.isEmpty_iff] at hnil
      rw [hnil] at hmem
      simp at hmem
    · exact publishLoop_state_of_ok env _ posted it hmem hp

theorem flushBatched_cons_of_not_save (e : Event) (tr : List Event)
    (h : isSaveEvent e = false) : flushBatched (e :: tr) = flushBatched tr := by
  cases e <;> first
    | rfl
    | simp [isSaveEvent] at h

theorem flushBatched_append_of_no_save (l tr : List Event)
    (h : ∀ e ∈ l, isSaveEvent e = false) :
    flushBatched (l ++ tr) = flushBatched tr := by
  induction l with
  | nil => rfl
  | cons e l ih =>
      rw [List.cons_append,
        flushBatched_cons_of_not_save e _ (h e (List.mem_cons_self _ _))]
      exact ih (fun x hx => h x (List.mem_cons_of_mem _ hx))

theorem itemOf_uid (d : Doc) : (itemOf d).uid = uidOf d.doc_page_url := rfl

theorem isSaveEvent_pushAssets : isSaveEvent Event.pushAssets = false := rfl

theorem slugChar_not_space (c : Char) (h : isSlugChar c = true) : isPySpace c = false := by
  cases hsp : isPySpace c
  · rfl
  · exfalso
    simp only [isPySpace, Bool.or_eq_true, beq_iff_eq] at hsp
    rcases hsp with ((((rfl | rfl) | rfl) | rfl) | rfl) | rfl <;> exact absurd h (by decide)

theorem dedupByUrl_nodup (l : List Doc) :
    ∀ seen, ((dedupByUrl seen l).map (fun d => d.doc_page_url)).Nodup ∧
      ∀ u ∈ (dedupByUrl seen l).map (fun d => d.doc_page_url), u ∉ seen := by
  induction l with
  | nil => intro seen; simp [dedupByUrl]
  | cons d rest ih =>
      intro seen
      by_cases h : d.doc_page_url ∈ seen
      · simpa [dedupByUrl, h] using ih seen
      · have h2 := ih (d.doc_page_url :: seen)
        simp only [dedupByUrl]
        rw [if_neg h]
        simp only [List.map_cons]
        constructor
        · rw [List.nodup_cons]
          exact ⟨fun hmem => (h2.2 _ hmem) (List.mem_cons_self _ _), h2.1⟩
        · intro u hu
          rcases List.mem_cons.mp hu with rfl | hmem
          · exact h
          · exact fun hs => (h2.2 u hmem) (List.mem_cons_of_mem _ hs)

/-! ## Claim theorems -/

/-- Claim C1, counterexample.  The claim says a second orchestrator run
against an unchanged listing and the persisted state publishes zero
additional documents.  src/fia_instagram_bot.py stops after the first
publish of a run, so with two new documents the second run publishes one
more: its publish count is not zero. -/
theorem C1_cex_bot_second_run_publishes :
    ¬ ((bot_main
          [⟨"A", "d1", "https://fia.com/a.pdf"⟩, ⟨"B", "d2", "https://fia.com/b.pdf"⟩]
          (bot_main
            [⟨"A", "d1", "https://fia.com/a.pdf"⟩, ⟨"B", "d2", "https://fia.com/b.pdf"⟩]
            []).1).2 = 0) := by
  decide

/-- Claim C1, amended.  For src/main.py's orchestrator: running it a second
time against the same candidate list, the same environment and the state
persisted by the first run performs zero successful publishes (the
Publisher can still be invoked for candidates whose publish failed in the
first run, and the simpler bot can publish additional documents). -/
theorem C1_second_run_publishes_nothing (env : Env) (posted : List String)
    (cands : List Doc) :
    countSuccess (run env (run env posted cands).state cands).trace = 0 := by
  have hA : ∀ it ∈ gather env (run env posted cands).state cands,
      env.publishOk (imageUrl env it) = false := by
    intro it hit
    cases hpo : env.publishOk (imageUrl env it) with
    | false => rfl
    | true =>
        exfalso
        have hnm := gather_uid_not_mem env _ cands it hit
        have hit1 : it ∈ gather env posted cands :=
          gather_anti env posted _ (run_state_mono env posted cands) cands it hit
        exact hnm (run_mem_state_of_ok env posted cands it hit1 hpo)
  set s1 := (run env posted cands).state with hs1
  unfold run
  split
  · simp [countSuccess]
  · split
    · simp [countSuccess]
    · simp only [countSuccess, List.countP_cons, List.countP_append]
      simp only [isSuccessEvent]
      simpa [countSuccess] using publishLoop_zero_success env (gather env s1 cands) s1 hA

/-- Claim C2, counterexample.  The claim says normalized-equal locators get
the same identity.  src/main.py hashes the raw locator, so a locator and
its fragment variant are normalized-equal yet get different identities. -/
theorem C2_cex_fragment_changes_identity :
    normalizeLocator "https://www.fia.com/document/x" =
      normalizeLocator "https://www.fia.com/document/x#top" ∧
    uidOf "https://www.fia.com/document/x" ≠
      uidOf "https://www.fia.com/document/x#top" := by
  exact ⟨by decide, by decide⟩

/-- Claim C2, amended.  The identity derivation hashes the raw locator with
no normalization: string-identical locators get identical identities, but
trivially equivalent URLs (here, a trailing-slash variant, which the
normalization of the spec collapses) get different identities. -/
theorem C2_identity_of_raw_locator (a b : String) (h : a = b) :
    uidOf a = uidOf b ∧
    normalizeLocator "https://www.fia.com/document/x" =
      normalizeLocator "https://www.fia.com/document/x/" ∧
    uidOf "https://www.fia.com/document/x" ≠
      uidOf "https://www.fia.com/document/x/" :=
  ⟨by rw [h], by decide, by decide⟩

/-- Witness for C2_identity_of_raw_locator at a concrete locator pair. -/
theorem C2_identity_of_raw_locator_witness :
    uidOf "https://x/a" = uidOf "https://x/a" ∧
    normalizeLocator "https://www.fia.com/document/x" =
      normalizeLocator "https://www.fia.com/document/x/" ∧
    uidOf "https://www.fia.com/document/x" ≠
      uidOf "https://www.fia.com/document/x/" :=
  C2_identity_of_raw_locator "https://x/a" "https://x/a" rfl

/-- Claim C3, counterexample.  The claim says the PostedSet is flushed after
every successful publish before the next candidate is attempted.  In a run
of src/main.py with two fully succeeding candidates, the trace publishes
the second candidate before any state save: the per-publish flush
discipline fails. -/
theorem C3_cex_no_flush_between_publishes :
    perPublishFlush (run envAll [] [dW1, dW2]).trace = false := by
  decide

/-- Claim C3, amended.  src/main.py batches the flush: the updated PostedSet
is written once, by the single save_state call after the publish loop has
finished; after that save the trace contains no further publish events and
no further saves. -/
theorem C3_state_saved_once_at_end (env : Env) (posted : List String)
    (cands : List Doc) :
    flushBatched (run env posted cands).trace = true := by
  unfold run
  split
  · rfl
  · split
    · rfl
    · dsimp only
      have hns : ∀ e ∈ Event.pushAssets :: (publishLoop env (gather env posted cands) posted).2,
          isSaveEvent e = false := by
        intro e he
        rcases List.mem_cons.mp he with rfl | hm
        · rfl
        · exact publishLoop_no_save env _ posted e hm
      rw [flushBatched_append_of_no_save _ _ hns]
      rfl

/-- Claim C4: a failure at a per-candidate stage skips only that candidate.
With three candidates where the second fails at the render stage and the
first and third pass every stage, the third is still attempted (its publish
attempt is in the trace) and the final state contains exactly the
identities of the first and third (plus whatever was already posted), not
the second. -/
theorem C4_render_failure_isolated
    (env : Env) (posted : List String) (c1 c2 c3 : Doc) (p1 p2 p3 : String)
    (h1r : env.resolvePdf c1.doc_page_url = some p1)
    (h1f : env.fetchOk p1 = true) (h1d : env.renderOk p1 = true)
    (h1p : env.publishOk (imageUrl env (itemOf c1)) = true)
    (h2r : env.resolvePdf c2.doc_page_url = some p2)
    (h2f : env.fetchOk p2 = true) (h2d : env.renderOk p2 = false)
    (h3r : env.resolvePdf c3.doc_page_url = some p3)
    (h3f : env.fetchOk p3 = true) (h3d : env.renderOk p3 = true)
    (h3p : env.publishOk (imageUrl env (itemOf c3)) = true)
    (hm1 : uidOf c1.doc_page_url ∉ posted)
    (hm2 : uidOf c2.doc_page_url ∉ posted)
    (hm3 : uidOf c3.doc_page_url ∉ posted)
    (hne21 : uidOf c2.doc_page_url ≠ uidOf c1.doc_page_url)
    (hne23 : uidOf c2.doc_page_url ≠ uidOf c3.doc_page_url) :
    Event.publishAttempt (uidOf c3.doc_page_url) ∈ (run env posted [c1, c2, c3]).trace ∧
    (∀ x, x ∈ (run env posted [c1, c2, c3]).state ↔
        x = uidOf c1.doc_page_url ∨ x = uidOf c3.doc_page_url ∨ x ∈ posted) ∧
    uidOf c2.doc_page_url ∉ (run env posted [c1, c2, c3]).state := by
  have hg : gather env posted [c1, c2, c3] = [itemOf c1, itemOf c3] := by
    simp [gather, hm1, hm2, hm3, h1r, h1f, h1d, h2r, h2f, h2d, h3r, h3f, h3d]
  have hpl : publishLoop env [itemOf c1, itemOf c3] posted =
      (insertId (uidOf c3.doc_page_url) (insertId (uidOf c1.doc_page_url) posted),
       [Event.publishAttempt (uidOf c1.doc_page_url),
        Event.publishSuccess (uidOf c1.doc_page_url),
        Event.publishAttempt (uidOf c3.doc_page_url),
        Event.publishSuccess (uidOf c3.doc_page_url)]) := by
    simp [publishLoop, h1p, h3p, itemOf_uid]
  have hrun : run env posted [c1, c2, c3] =
      ⟨insertId (uidOf c3.doc_page_url) (insertId (uidOf c1.doc_page_url) posted),
       [Event.pushAssets,
        Event.publishAttempt (uidOf c1.doc_page_url),
        Event.publishSuccess (uidOf c1.doc_page_url),
        Event.publishAttempt (uidOf c3.doc_page_url),
        Event.publishSuccess (uidOf c3.doc_page_url),
        Event.saveState
          (insertId (uidOf c3.doc_page_url) (insertId (uidOf c1.doc_page_url) posted)),
        Event.pushState], 0⟩ := by
    simp [run, hg, hpl]
  refine ⟨?_, ?_, ?_⟩
  · simp [hrun]
  · intro x
    simp only [hrun]
    rw [mem_insertId, mem_insertId]
    tauto
  · simp only [hrun]
    rw [mem_insertId, mem_insertId]
    rintro (h | h | h)
    · exact hne23 h
    · exact hne21 h
    · exact hm2 h

/-- Witness for C4_render_failure_isolated: concrete three-candidate run in
which the second candidate's PDF "P2" fails to render. -/
theorem C4_render_failure_isolated_witness :
    Event.publishAttempt (uidOf "https://www.fia.com/document/d3")
        ∈ (run envRender2Fails [] [dW1, dW2, dW3]).trace ∧
    uidOf "https://www.fia.com/document/d1" ∈ (run envRender2Fails [] [dW1, dW2, dW3]).state ∧
    uidOf "https://www.fia.com/document/d2" ∉ (run envRender2Fails [] [dW1, dW2, dW3]).state := by
  have h := C4_render_failure_isolated envRender2Fails [] dW1 dW2 dW3 "P1" "P2" "P3"
    (by decide) rfl (by decide) rfl (by decide) rfl (by decide) (by decide) rfl
    (by decide) rfl (by simp) (by simp) (by simp) (by decide) (by decide)
  exact ⟨h.1, (h.2.1 _).mpr (Or.inl rfl), h.2.2⟩

/-- Claim C5, counterexample.  The claim says the derived DocumentIdentity
digest is at least 128 bits, i.e. at least 32 hex characters.  src/main.py
truncates the hex digest to 16 characters (64 bits). -/
theorem C5_cex_digest_shorter_than_128_bits :
    ¬ (32 ≤ (uidOf "https://www.fia.com/document/x").length) := by
  decide

/-- Claim C5, amended.  The derived identity is a fixed-length truncation of
a SHA-256 digest, but its length is 16 hex characters (64 bits), not at
least 128 bits; identical locators still yield identical identities across
runs because uidOf is a pure function of the locator string. -/
theorem C5_identity_fixed_16_hex (s : String) : (uidOf s).length = 16 := by
  have h := sha256hex_length s
  unfold uidOf
  simp only [String.length]
  rw [List.length_take, h]
  exact min_eq_left (by decide)

/-- Claim C6: the rendered assets are pushed to their stable public address
(the git commit-and-push of src/main.py line 220) strictly before any
publish attempt in the same run: no publish event precedes the assets push
in any trace. -/
theorem C6_assets_pushed_before_publish (env : Env) (posted : List String)
    (cands : List Doc) :
    noPublishBeforePush (run env posted cands).trace = true := by
  unfold run
  split
  · rfl
  · split
    · rfl
    · rfl

/-- Claim C7, counterexample.  The claim says total listing-scan failure
makes the process exit non-zero.  src/main.py logs "No documents found"
and returns normally: the exit code is 0. -/
theorem C7_cex_empty_listing_exit_code_zero :
    ¬ ((mainRun (fun _ => (none : Option (List Anchor))) ["a"] envAll).exitCode ≠ 0) := by
  decide

/-- Claim C7, amended.  When no configured listing source yields any
candidate, the process reports the condition and returns normally with
exit code 0, having performed no state mutation and published nothing. -/
theorem C7_empty_listing_normal_exit (fetch : String → Option (List Anchor))
    (posted : List String) (env : Env) (h : find_latest_docs fetch 12 = []) :
    (mainRun fetch posted env).exitCode = 0 ∧
    (mainRun fetch posted env).state = posted ∧
    (mainRun fetch posted env).trace = [] := by
  unfold mainRun
  rw [h]
  exact ⟨rfl, rfl, rfl⟩

/-- Witness for C7_empty_listing_normal_exit: every listing fetch fails, so
the scan yields no candidates and the run exits 0 without touching state. -/
theorem C7_empty_listing_normal_exit_witness :
    find_latest_docs (fun _ => (none : Option (List Anchor))) 12 = [] ∧
    (mainRun (fun _ => (none : Option (List Anchor))) ["a"] envAll).exitCode = 0 ∧
    (mainRun (fun _ => (none : Option (List Anchor))) ["a"] envAll).state = ["a"] ∧
    (mainRun (fun _ => (none : Option (List Anchor))) ["a"] envAll).trace = [] := by
  have h : find_latest_docs (fun _ => (none : Option (List Anchor))) 12 = [] := rfl
  have ht := C7_empty_listing_normal_exit (fun _ => (none : Option (List Anchor))) ["a"] envAll h
  exact ⟨h, ht.1, ht.2.1, ht.2.2⟩

/-- Claim C8, counterexample.  The claim says render produces exactly one
image and never emits images for subsequent pages.  On a two-page document
src/fia_instagram_bot.py's convert_pdf_to_img returns two images,
including one depicting the second page. -/
theorem C8_cex_all_pages_rendered :
    ¬ ((convert_pdf_to_img ⟨[0, 1]⟩).length = 1) ∧
    (⟨1, 200, "jpeg"⟩ : Img) ∈ convert_pdf_to_img ⟨[0, 1]⟩ := by
  decide

/-- Claim C8, amended.  src/main.py's renderer produces exactly one image of
exactly the first page at its fixed 220 dpi; src/fia_instagram_bot.py's
converter instead produces one image per page of the document. -/
theorem C8_first_page_vs_all_pages (pdf : PdfDoc) (p : Nat) (rest : List Nat)
    (h : pdf.pages = p :: rest) :
    pdf_first_page_to_png pdf 220 = some ⟨p, 220, "png"⟩ ∧
    (convert_pdf_to_img pdf).length = pdf.pages.length := by
  constructor
  · simp [pdf_first_page_to_png, h]
  · simp [convert_pdf_to_img]

/-- Witness for C8_first_page_vs_all_pages at a concrete one-page document. -/
theorem C8_first_page_vs_all_pages_witness :
    pdf_first_page_to_png ⟨[5]⟩ 220 = some ⟨5, 220, "png"⟩ ∧
    (convert_pdf_to_img ⟨[5]⟩).length = (⟨[5]⟩ : PdfDoc).pages.length :=
  C8_first_page_vs_all_pages ⟨[5]⟩ 5 [] rfl

/-- Claim C9, counterexample.  The claim says one listing page's scan output
has no two entries whose locators are equal after normalization.  Two
anchors whose hrefs differ only by a fragment survive the dedup (which
compares exact URL strings), yet their locators are normalized-equal. -/
theorem C9_cex_normalized_duplicates_survive :
    ((parse_listing_for_docs
        [⟨"https://www.fia.com/document/x", "Doc 1", ""⟩,
         ⟨"https://www.fia.com/document/x#top", "Doc 1", ""⟩]
        "https://www.fia.com/documents/page").map (fun d => d.doc_page_url)
      = ["https://www.fia.com/document/x", "https://www.fia.com/document/x#top"]) ∧
    normalizeLocator "https://www.fia.com/document/x" =
      normalizeLocator "https://www.fia.com/document/x#top" := by
  decide

/-- Claim C9, amended.  Deduplication within one listing page is by exact
resolved locator string: the scan output never contains two entries with
equal doc_page_url, but normalized-equal variants are not collapsed. -/
theorem C9_dedup_by_exact_url (anchors : List Anchor) (base : String) :
    ((parse_listing_for_docs anchors base).map (fun d => d.doc_page_url)).Nodup :=
  (dedupByUrl_nodup (parseItems base anchors) []).1

/-- Claim C10: for every input string, safe_slug returns a string of length
at most 100 whose characters are drawn only from ASCII letters, digits,
hyphen, underscore and dot, and which contains no whitespace. -/
theorem C10_safe_slug_safe (s : String) :
    (safe_slug s).length ≤ 100 ∧
    ∀ c ∈ (safe_slug s).data, isSlugChar c = true ∧ isPySpace c = false := by
  constructor
  · simp only [safe_slug, String.length]
    rw [List.length_take]
    exact Nat.min_le_left _ _
  · intro c hc
    have hc' : c ∈ ((wsToDash (stripPy s.data)).filter isSlugChar).take 100 := hc
    have hfil : c ∈ (wsToDash (stripPy s.data)).filter isSlugChar :=
      List.take_subset _ _ hc'
    have hslug : isSlugChar c = true := (List.mem_filter.mp hfil).2
    exact ⟨hslug, slugChar_not_space c hslug⟩

/-- Witness for C10_safe_slug_safe at a concrete title. -/
theorem C10_safe_slug_safe_witness :
    (safe_slug "Doc 44").length ≤ 100 ∧
    (isSlugChar 'D' = true ∧ isPySpace 'D' = false) :=
  ⟨(C10_safe_slug_safe "Doc 44").1, (C10_safe_slug_safe "Doc 44").2 'D' (by decide)⟩

end FiaBot
